import Mathlib

/-!
Verification development for the `zep-go` client library.

The repository has two source files:
* `main.go` — a legacy hand-written client (`DefaultZepClient`) with a
  construction-time health check, a semantic-version gate, and a raw
  request dispatcher `HandleRequest`;
* a generated `search` client whose `Get` builds a URL, merges headers and
  calls a shared request executor (`core.Caller`) with a status-code-keyed
  `errorDecoder`.

Pure Go functions are embedded as Lean functions.  Code of the repository
that is not among the given sources (the `core` package: `Caller`,
`MergeHeaders`, `NewAPIError`) is modelled from the spec, as marked on each
definition.  The third-party `Masterminds/semver` v3 library used by
`isVersionGreaterOrEqual` is embedded from its documented semantics.
-/

/-! ## Constants from `main.go` -/

def APIBasePath : String := "/api/v1"

def ServerErrorMessage : String :=
  "Failed to connect to Zep server. Please check that the server is running, the API URL is correct, and no other process is using the same port"

def MinServerVersion : String := "0.16.0"

def MinServerWarningMsg : String :=
  "You are using an incompatible Zep server version. Please upgrade to " ++ MinServerVersion ++ " or later."

/-! ## Go `strings` helpers used by `main.go`

`strings.TrimSuffix(s, suffix)` removes one occurrence of `suffix` from the
end of `s` when present; `strings.Join` interleaves a separator. -/

/-- Embedding of the character list of a suffix test plus removal, on the
underlying character lists of the strings. -/
def trimSuffixList (s suffix : List Char) : List Char :=
  if suffix.isSuffixOf s then s.take (s.length - suffix.length) else s

/-- Go `strings.TrimSuffix`. -/
def trimSuffix (s suffix : String) : String :=
  ⟨trimSuffixList s.data suffix.data⟩

/-- Go `strings.HasSuffix`, used here only to state properties. -/
def hasSuffix (s suffix : String) : Bool :=
  suffix.data.isSuffixOf s.data

/-- `joinPaths` from `main.go`: `strings.Join(paths, "/")`. -/
def joinPaths (paths : List String) : String :=
  String.intercalate "/" paths

/-! ## `HandleRequest` (`main.go` lines 104–120)

The dispatcher's outcome, given that a response was received, is a function
of the response's status code (and the caller-supplied not-found message). -/

inductive HandleResult where
  | success : HandleResult
  | notFoundError (msg : String) : HandleResult
  | authenticationError (msg : String) : HandleResult
  | apiError (msg : String) : HandleResult
deriving DecidableEq, Repr

/-- `HandleRequest`'s `switch` on `response.StatusCode`: 200 returns the
response, 404 a `NotFoundError` with the supplied message, 401 an
`AuthenticationError`, anything else a generic `APIError`. -/
def handleRequest (statusCode : Nat) (notFoundMessage : String) : HandleResult :=
  if statusCode = 200 then .success
  else if statusCode = 404 then .notFoundError notFoundMessage
  else if statusCode = 401 then .authenticationError "Authentication failed."
  else .apiError ("Got an unexpected status code: " ++ toString statusCode)

/-! ## The generated `Get`'s `errorDecoder` (generated source lines 67–91)

`core.NewAPIError(statusCode, errors.New(string(raw)))` packages the status
code with the raw body.  The JSON decoding of the typed error bodies lives
in repository code outside the given sources, so whether a given raw body
decodes into `zepgo.NotFoundError` / `zepgo.InternalServerError` is taken as
an arbitrary predicate on the body. -/

structure APIError where
  statusCode : Nat
  body : String
deriving DecidableEq, Repr

inductive DecodedError where
  | notFoundError (e : APIError) : DecodedError
  | internalServerError (e : APIError) : DecodedError
  | apiError (e : APIError) : DecodedError
deriving DecidableEq, Repr

/-- The `errorDecoder` closure of the generated `Get`.  `decode404` and
`decode500` stand for success of `json.Decoder.Decode` into
`zepgo.NotFoundError` resp. `zepgo.InternalServerError` on the raw body
(that decoding is repository code outside the given sources).  On 404/500
with a decodable body the typed error (which carries the `APIError`) is
returned, otherwise — and on every other status — the generic `APIError`
built from the status code and the raw body. -/
def errorDecoder (decode404 decode500 : String → Bool)
    (statusCode : Nat) (raw : String) : DecodedError :=
  let apiError : APIError := ⟨statusCode, raw⟩
  if statusCode = 404 then
    if decode404 raw then .notFoundError apiError else .apiError apiError
  else if statusCode = 500 then
    if decode500 raw then .internalServerError apiError else .apiError apiError
  else .apiError apiError

/-! ## Semantic versions (`Masterminds/semver` v3, used by `main.go`)

`isVersionGreaterOrEqual` builds the constraint `">= 0.16.0"` (a constant
that always parses) and checks the parsed version against it.  The library
is third-party; the embedding follows its documented semantics:

* `semver.NewVersion` is lenient: an optional leading `v`, one to three
  dot-separated numeric core parts (missing parts default to 0), an
  optional `-prerelease` and an optional `+metadata`, each a non-empty
  dot-separated chain of alphanumeric/hyphen identifiers;
* `Constraints.Check` on a constraint that names no prerelease rejects
  every version that carries a prerelease, and otherwise compares with
  `Version.Compare` (numeric core compare, metadata ignored, prerelease
  identifiers compared numerically when numeric, else lexically, and a
  missing prerelease ranking above any present one). -/

structure SemVersion where
  major : Nat
  minor : Nat
  patch : Nat
  prerelease : String
  metadata : String
deriving DecidableEq, Repr

/-- Splits a character list at every occurrence of `sep` (the behaviour of
`strings.Split` on the identifier chains). -/
def splitOnChar (sep : Char) : List Char → List (List Char)
  | [] => [[]]
  | c :: cs =>
    let r := splitOnChar sep cs
    if c = sep then [] :: r
    else
      match r with
      | [] => [[c]]
      | h :: t => (c :: h) :: t

/-- Splits a character list at the first occurrence of `sep`, when any. -/
def breakFirst (sep : Char) : List Char → List Char × Option (List Char)
  | [] => ([], none)
  | c :: cs =>
    if c = sep then ([], some cs)
    else
      let (a, b) := breakFirst sep cs
      (c :: a, b)

/-- Digits of a purely numeric identifier, as a number. -/
def natOfDigits (l : List Char) : Nat :=
  l.foldl (fun n c => n * 10 + (c.toNat - '0'.toNat)) 0

/-- A non-empty all-digit identifier, parsed. -/
def parseNumPart (l : List Char) : Option Nat :=
  if !l.isEmpty && l.all Char.isDigit then some (natOfDigits l) else none

/-- Characters the library accepts in prerelease/metadata identifiers. -/
def isIdentChar (c : Char) : Bool :=
  c.isAlphanum || c = '-'

/-- A non-empty dot-separated chain of non-empty identifiers. -/
def validIdentChain (l : List Char) : Bool :=
  (splitOnChar '.' l).all fun p => !p.isEmpty && p.all isIdentChar

/-- The numeric core: one to three dot-separated numeric parts. -/
def parseCore (core : List Char) : Option (Nat × Nat × Nat) :=
  match splitOnChar '.' core with
  | [a] => do pure (← parseNumPart a, 0, 0)
  | [a, b] => do pure (← parseNumPart a, ← parseNumPart b, 0)
  | [a, b, c] => do pure (← parseNumPart a, ← parseNumPart b, ← parseNumPart c)
  | _ => none

/-- `semver.NewVersion`: strip an optional `v`, split off `+metadata`, then
`-prerelease`, then parse the numeric core. -/
def parseVersion (s : String) : Option SemVersion := do
  let t := match s.data with
    | 'v' :: rest => rest
    | l => l
  let (beforePlus, metaOpt) := breakFirst '+' t
  let (core, preOpt) := breakFirst '-' beforePlus
  let (major, minor, patch) ← parseCore core
  let prerelease ← match preOpt with
    | none => pure ""
    | some p => if validIdentChain p then pure (⟨p⟩ : String) else none
  let metadata ← match metaOpt with
    | none => pure ""
    | some m => if validIdentChain m then pure (⟨m⟩ : String) else none
  pure ⟨major, minor, patch, prerelease, metadata⟩

/-- Lexicographic comparison of character lists by code point. -/
def compareCharList : List Char → List Char → Int
  | [], [] => 0
  | [], _ :: _ => -1
  | _ :: _, [] => 1
  | a :: as, b :: bs =>
    if a.toNat < b.toNat then -1
    else if b.toNat < a.toNat then 1
    else compareCharList as bs

/-- Compare two prerelease identifiers: numeric ones numerically and below
alphanumeric ones, alphanumeric ones lexically. -/
def compareIdent (a b : List Char) : Int :=
  match parseNumPart a, parseNumPart b with
  | some x, some y => if x < y then -1 else if x = y then 0 else 1
  | some _, none => -1
  | none, some _ => 1
  | none, none => compareCharList a b

/-- Compare dot-separated prerelease identifier lists; a proper prefix is
smaller. -/
def comparePreList : List (List Char) → List (List Char) → Int
  | [], [] => 0
  | [], _ :: _ => -1
  | _ :: _, [] => 1
  | a :: as, b :: bs =>
    let c := compareIdent a b
    if c = 0 then comparePreList as bs else c

/-- Compare prerelease strings: equal strings tie, a missing prerelease
ranks above any present one, otherwise identifier-wise comparison. -/
def comparePrerelease (a b : String) : Int :=
  if a = b then 0
  else if a = "" then 1
  else if b = "" then -1
  else comparePreList (splitOnChar '.' a.data) (splitOnChar '.' b.data)

/-- `Version.Compare`: numeric core first, then prerelease; metadata is
ignored. -/
def compareSemVer (v w : SemVersion) : Int :=
  if v.major ≠ w.major then (if v.major < w.major then -1 else 1)
  else if v.minor ≠ w.minor then (if v.minor < w.minor then -1 else 1)
  else if v.patch ≠ w.patch then (if v.patch < w.patch then -1 else 1)
  else comparePrerelease v.prerelease w.prerelease

/-- The minimum supported version `0.16.0` (the constraint's version). -/
def minVersion : SemVersion := ⟨0, 16, 0, "", ""⟩

/-- `Constraints.Check` for the single constraint `>= c`: a version with a
prerelease never satisfies a constraint without one; otherwise
`v.Compare(c) >= 0`. -/
def checkConstraintGE (v c : SemVersion) : Bool :=
  if v.prerelease ≠ "" && c.prerelease = "" then false
  else compareSemVer v c ≥ 0

/-- `isVersionGreaterOrEqual` from `main.go`: the constraint
`">= 0.16.0"` always parses, so the only error source is
`semver.NewVersion`; on success the constraint check's verdict is
returned. -/
def isVersionGreaterOrEqual (version : String) : Except String Bool :=
  match parseVersion version with
  | none => .error ("Invalid Semantic Version: " ++ version)
  | some v => .ok (checkConstraintGE v minVersion)

deriving instance DecidableEq for Except


/-! ## `CheckServer` and `NewZepClient` (`main.go` lines 29–97)

`CheckServer`'s handling of a received health response (`main.go` lines
84–96): it reads the `X-Zep-Version` header, runs the version gate
(returning its parse error when the header is not a version), prints a
warning when the gate says no, and only then fails hard on a non-200
status.  The outcome is the returned error (`none` = Go `nil`) together
with whether the warning line was printed. -/

inductive CheckServerError where
  | versionError (msg : String) : CheckServerError
  | zepError (msg : String) : CheckServerError
deriving DecidableEq, Repr

/-- Message carried by a `CheckServerError`. -/
def CheckServerError.message : CheckServerError → String
  | .versionError m => m
  | .zepError m => m

/-- `CheckServer` on a received health response with status `statusCode`
and `X-Zep-Version` header `versionHeader`: returned error (`none` = `nil`)
and whether the below-minimum warning was printed. -/
def checkServer (statusCode : Nat) (versionHeader : String) :
    Option CheckServerError × Bool :=
  match isVersionGreaterOrEqual versionHeader with
  | .error e => (some (.versionError e), false)
  | .ok meetsMinVersion =>
    if statusCode ≠ 200 then
      (some (.zepError ServerErrorMessage), !meetsMinVersion)
    else
      (none, !meetsMinVersion)

/-- `DefaultZepClient`'s configuration (`main.go` lines 52–57); the
transport is left out of the pure embedding. -/
structure DefaultZepClient where
  ServerURL : String
  Headers : List (String × String)
deriving DecidableEq, Repr

/-- `NewZepClient` (`main.go` lines 31–50): build the headers, trim one
trailing slash off the server URL, construct the client, run the health
check and print — never return — its error.  The health response the
check will see is passed in as `(healthStatus, versionHeader)`; the result
is the returned client together with every line printed during
construction. -/
def newZepClient (serverURL apiKey : String)
    (healthStatus : Nat) (versionHeader : String) :
    DefaultZepClient × List String :=
  let headers := if apiKey ≠ "" then [("Authorization", "Bearer " ++ apiKey)] else []
  let url := trimSuffix serverURL "/"
  let c : DefaultZepClient := ⟨url, headers⟩
  let check := checkServer healthStatus versionHeader
  let warnLines := if check.2 then ["Warning: " ++ MinServerWarningMsg] else []
  let errLines := match check.1 with
    | some e => [e.message]
    | none => []
  (c, warnLines ++ errLines)

/-- `GetFullURL` (`main.go` lines 61–63), written as the Go pointer-receiver
method: it returns the joined URL and the (unassigned, hence unchanged)
receiver. -/
def getFullURL (z : DefaultZepClient) (endpoint : String) :
    String × DefaultZepClient :=
  (joinPaths [z.ServerURL, APIBasePath, endpoint], z)

/-! ## The request executor (`core.Caller`)

Modelled from the spec: the `core` package is repository code outside the
given sources.  Per the spec, `Caller.Call` "sends an HTTP request, retries
up to a configured attempt count on transient failure, decodes a successful
JSON body into the expected type, and on error status codes invokes a
status-code-keyed decoder to produce a typed error", with "no retry-vs-fatal
policy beyond a fixed attempt count for transport-level failures".  The
network is represented by an oracle assigning each attempt its outcome. -/

inductive Outcome where
  | transportFailure (msg : String) : Outcome
  | response (status : Nat) (body : String) : Outcome
deriving DecidableEq, Repr

inductive CallResult where
  | success (body : String) : CallResult
  | failure (e : DecodedError) : CallResult
  | transportError (msg : String) : CallResult
deriving DecidableEq, Repr

/-- Modelled from the spec: one round of the executor's attempt loop,
started at attempt index `i` with `remaining` attempts allowed.  A received
response ends the loop at once — success on a 2xx status, the decoder's
typed error otherwise; a transport failure is retried while attempts
remain.  Returns the result and the number of attempts made. -/
def callerRun (decoder : Nat → String → DecodedError) (outcomes : Nat → Outcome) :
    Nat → Nat → CallResult × Nat
  | _, 0 => (.transportError "no attempts", 0)
  | i, remaining + 1 =>
    match outcomes i with
    | .transportFailure msg =>
      if remaining = 0 then (.transportError msg, 1)
      else
        let (res, n) := callerRun decoder outcomes (i + 1) remaining
        (res, n + 1)
    | .response status body =>
      if 200 ≤ status && status < 300 then (.success body, 1)
      else (.failure (decoder status body), 1)

/-- Modelled from the spec: `Caller.Call` with the configured `MaxAttempts`,
as invoked by the generated `Get`. -/
def callerCall (decoder : Nat → String → DecodedError) (outcomes : Nat → Outcome)
    (maxAttempts : Nat) : CallResult × Nat :=
  callerRun decoder outcomes 0 maxAttempts

/-! ## Header merging in the generated `Get` (generated source line 65)

`c.header` is a Go `http.Header`, a mutable map; `MergeHeaders` (in the
`core` package, outside the given sources) merges per-request headers into
its first argument in place.  Mutability is made explicit by a store of
headers addressed by references: the client's stored defaults live at one
reference, `Clone` allocates a fresh copy, and the merge writes through the
reference it is given.  Line 65 of the generated source is then
`mergeInto (clone c.header) options.ToHeader()`. -/

/-- A Go `http.Header`: keys with their lists of values. -/
def HeaderMap := List (String × List String)
deriving instance DecidableEq, Repr for HeaderMap

/-- `http.Header.Set`-style update used by the merge: replaces the values
stored under the key. -/
def setHeader (h : HeaderMap) (key : String) (vals : List String) : HeaderMap :=
  (h.filter fun kv => kv.1 ≠ key) ++ [(key, vals)]

/-- Modelled from the spec: `core.MergeHeaders` folds the per-request
headers into the destination map. -/
def mergeHeaderMaps (dst src : HeaderMap) : HeaderMap :=
  src.foldl (fun acc kv => setHeader acc kv.1 kv.2) dst

/-- The mutable store: header maps addressed by `Nat` references below
`next`. -/
structure HeaderStore where
  mem : Nat → HeaderMap
  next : Nat

/-- `http.Header.Clone`: allocate a fresh reference holding a copy of the
map at `r`. -/
def cloneHeader (st : HeaderStore) (r : Nat) : HeaderStore × Nat :=
  (⟨fun i => if i = st.next then st.mem r else st.mem i, st.next + 1⟩, st.next)

/-- Modelled from the spec: `core.MergeHeaders` writes the merged map back
through its destination reference. -/
def mergeInto (st : HeaderStore) (dst : Nat) (src : HeaderMap) : HeaderStore :=
  ⟨fun i => if i = dst then mergeHeaderMaps (st.mem i) src else st.mem i, st.next⟩

/-- Line 65 of the generated `Get`:
`headers := core.MergeHeaders(c.header.Clone(), options.ToHeader())`, with
the client's stored defaults at reference `clientHeader`.  Returns the
updated store and the reference holding the request headers. -/
def getRequestHeaders (st : HeaderStore) (clientHeader : Nat)
    (optsHeader : HeaderMap) : HeaderStore × Nat :=
  let (st1, copy) := cloneHeader st clientHeader
  (mergeInto st1 copy optsHeader, copy)

/-! ## Test fixtures used by witnesses and counterexamples -/

/-- A body-decoder that always succeeds. -/
def decodeAlways : String → Bool := fun _ => true

/-- A body-decoder that always fails. -/
def decodeNever : String → Bool := fun _ => false

/-- A concrete status-keyed decoder for exercising the executor. -/
def testDecoder : Nat → String → DecodedError := fun s b => .apiError ⟨s, b⟩

/-- A network oracle: one transient failure, then a successful response. -/
def testOutcomes : Nat → Outcome := fun i =>
  if i = 0 then .transportFailure "connection refused" else .response 200 "[]"

/-- A one-reference header store holding the client's default headers. -/
def testStore : HeaderStore := ⟨fun _ => [("Authorization", ["Bearer k"])], 1⟩

/-! ## C1 — status-code dispatch of `HandleRequest` and the generated `Get` -/

/-- C1, counterexample.  The claim says status 500 yields an
internal-server error and status 401 an authentication error in both
dispatch paths.  In `HandleRequest`, 500 falls into the `default` branch
and yields the generic `APIError`; in the generated `Get`'s
`errorDecoder`, 401 has no case and yields the generic `APIError`; and on
404 the result further depends on whether the body decodes, so it is not
determined by the status code alone. -/
theorem claim_C1_counterexample :
    handleRequest 500 "m" = .apiError "Got an unexpected status code: 500" ∧
    errorDecoder decodeAlways decodeAlways 401 "b" = .apiError ⟨401, "b"⟩ ∧
    errorDecoder decodeNever decodeNever 404 "b" = .apiError ⟨404, "b"⟩ ∧
    errorDecoder decodeAlways decodeAlways 404 "b" = .notFoundError ⟨404, "b"⟩ := by
  decide

/-- C1, amended: `HandleRequest` maps 200 to success, 404 to a not-found
error carrying the supplied message, 401 to an authentication error, and
every other status — 500 included — to the generic `APIError`; the
generated `Get`'s `errorDecoder` maps 404 to a not-found error and 500 to
an internal-server error when the body decodes into the typed error, and
every other case — 401 included, and 404/500 with an undecodable body —
to the generic `APIError` carrying the status code and raw body. -/
theorem claim_C1_status_mapping :
    (∀ msg, handleRequest 200 msg = .success) ∧
    (∀ msg, handleRequest 404 msg = .notFoundError msg) ∧
    (∀ msg, handleRequest 401 msg = .authenticationError "Authentication failed.") ∧
    (∀ s msg, s ≠ 200 → s ≠ 404 → s ≠ 401 →
      handleRequest s msg = .apiError ("Got an unexpected status code: " ++ toString s)) ∧
    (∀ d4 d5 raw, d4 raw = true →
      errorDecoder d4 d5 404 raw = .notFoundError ⟨404, raw⟩) ∧
    (∀ d4 d5 raw, d5 raw = true →
      errorDecoder d4 d5 500 raw = .internalServerError ⟨500, raw⟩) ∧
    (∀ d4 d5 s raw, s ≠ 404 → s ≠ 500 →
      errorDecoder d4 d5 s raw = .apiError ⟨s, raw⟩) := by
  refine ⟨fun msg => rfl, fun msg => rfl, fun msg => rfl, ?_, ?_, ?_, ?_⟩
  · intro s msg h200 h404 h401
    simp [handleRequest, h200, h404, h401]
  · intro d4 d5 raw h
    simp [errorDecoder, h]
  · intro d4 d5 raw h
    simp [errorDecoder, h]
  · intro d4 d5 s raw h404 h500
    simp [errorDecoder, h404, h500]

/-- C1, witness: the amended mapping at concrete statuses and bodies. -/
theorem claim_C1_status_mapping_witness :
    handleRequest 200 "m" = .success ∧
    handleRequest 404 "m" = .notFoundError "m" ∧
    handleRequest 401 "m" = .authenticationError "Authentication failed." ∧
    handleRequest 418 "m" = .apiError ("Got an unexpected status code: " ++ toString 418) ∧
    errorDecoder decodeAlways decodeAlways 404 "b" = .notFoundError ⟨404, "b"⟩ ∧
    errorDecoder decodeAlways decodeAlways 500 "b" = .internalServerError ⟨500, "b"⟩ ∧
    errorDecoder decodeAlways decodeAlways 403 "b" = .apiError ⟨403, "b"⟩ :=
  ⟨claim_C1_status_mapping.1 "m",
   claim_C1_status_mapping.2.1 "m",
   claim_C1_status_mapping.2.2.1 "m",
   claim_C1_status_mapping.2.2.2.1 418 "m" (by decide) (by decide) (by decide),
   claim_C1_status_mapping.2.2.2.2.1 decodeAlways decodeAlways "b" rfl,
   claim_C1_status_mapping.2.2.2.2.2.1 decodeAlways decodeAlways "b" rfl,
   claim_C1_status_mapping.2.2.2.2.2.2 decodeAlways decodeAlways 403 "b"
     (by decide) (by decide)⟩

/-! ## C7 — raw body carried when structured decoding fails -/

/-- C7: in the generated `Get`'s `errorDecoder`, a 404 (resp. 500) response
whose body does not decode into the typed error yields the generic
`APIError` built from the status code and the raw body. -/
theorem claim_C7_raw_body_on_decode_failure
    (decode404 decode500 : String → Bool) (raw : String) :
    (decode404 raw = false →
      errorDecoder decode404 decode500 404 raw = .apiError ⟨404, raw⟩) ∧
    (decode500 raw = false →
      errorDecoder decode404 decode500 500 raw = .apiError ⟨500, raw⟩) := by
  constructor <;> intro h <;> simp [errorDecoder, h]

/-- C7, witness: both branches at a concrete undecodable body. -/
theorem claim_C7_raw_body_on_decode_failure_witness :
    errorDecoder decodeNever decodeNever 404 "raw body" = .apiError ⟨404, "raw body"⟩ ∧
    errorDecoder decodeNever decodeNever 500 "raw body" = .apiError ⟨500, "raw body"⟩ :=
  ⟨(claim_C7_raw_body_on_decode_failure decodeNever decodeNever "raw body").1 rfl,
   (claim_C7_raw_body_on_decode_failure decodeNever decodeNever "raw body").2 rfl⟩

/-! ## C8 — construction never fails -/

/-- C8: `NewZepClient` returns the client built before the health check,
whatever the health response was: the returned configuration is the same
for any two health responses, and equals the trimmed URL with the
API-key header; the check's error only adds to the printed lines. -/
theorem claim_C8_construction_unconditional (serverURL apiKey : String)
    (s1 s2 : Nat) (v1 v2 : String) :
    (newZepClient serverURL apiKey s1 v1).1 = (newZepClient serverURL apiKey s2 v2).1 ∧
    (newZepClient serverURL apiKey s1 v1).1 =
      ⟨trimSuffix serverURL "/",
       if apiKey ≠ "" then [("Authorization", "Bearer " ++ apiKey)] else []⟩ :=
  ⟨rfl, rfl⟩

/-! ## C2 — warning vs hard failure in `CheckServer` -/

/-- C2: on a 200 health response whose `X-Zep-Version` header is a version
the gate rejects, `CheckServer` returns `nil` and only prints the warning;
on any non-200 health response it returns a non-`nil` error. -/
theorem claim_C2_checkServer_warning_vs_failure :
    (∀ v sv, parseVersion v = some sv → checkConstraintGE sv minVersion = false →
      checkServer 200 v = (none, true)) ∧
    (∀ s v, s ≠ 200 → (checkServer s v).1 ≠ none) := by
  constructor
  · intro v sv hparse hcheck
    simp [checkServer, isVersionGreaterOrEqual, hparse, hcheck]
  · intro s v hs
    unfold checkServer isVersionGreaterOrEqual
    cases parseVersion v <;> simp [hs]

/-- C2, witness: the below-minimum version `0.15.0` on a 200 response, and
the minimum version itself on a 500 response. -/
theorem claim_C2_checkServer_warning_vs_failure_witness :
    checkServer 200 "0.15.0" = (none, true) ∧ (checkServer 500 "0.16.0").1 ≠ none :=
  ⟨claim_C2_checkServer_warning_vs_failure.1 "0.15.0" ⟨0, 15, 0, "", ""⟩
     (by decide) (by decide),
   claim_C2_checkServer_warning_vs_failure.2 500 "0.16.0" (by decide)⟩

/-! ## C6 — per-request headers never touch the stored defaults -/

/-- C6: the header computation of the generated `Get` merges the
per-request headers into a freshly allocated clone, so the map stored at
the client's header reference is unchanged. -/
theorem claim_C6_get_preserves_client_header (st : HeaderStore) (r : Nat)
    (optsHeader : HeaderMap) (h : r < st.next) :
    ((getRequestHeaders st r optsHeader).1).mem r = st.mem r := by
  have hne : r ≠ st.next := Nat.ne_of_lt h
  simp [getRequestHeaders, cloneHeader, mergeInto, hne]

/-- C6, witness: a one-reference store holding the client's defaults. -/
theorem claim_C6_get_preserves_client_header_witness :
    ((getRequestHeaders testStore 0 [("X-Request-Id", ["1"])]).1).mem 0 =
      testStore.mem 0 :=
  claim_C6_get_preserves_client_header testStore 0 [("X-Request-Id", ["1"])]
    (by decide)

/-! ## C3 — attempt bound and retry discipline of the executor -/

/-- The executor's loop never makes more attempts than it was allowed. -/
lemma callerRun_attempts_le (decoder : Nat → String → DecodedError)
    (outcomes : Nat → Outcome) :
    ∀ fuel i, (callerRun decoder outcomes i fuel).2 ≤ fuel := by
  intro fuel
  induction fuel with
  | zero => intro i; simp [callerRun]
  | succ r ih =>
    intro i
    unfold callerRun
    cases houtcome : outcomes i with
    | transportFailure msg =>
      by_cases hr : r = 0
      · simp [hr]
      · simpa [hr] using Nat.succ_le_succ (ih (i + 1))
    | response status body =>
      by_cases h2xx : 200 ≤ status ∧ status < 300
      · simp [h2xx.1, h2xx.2]
      · rcases Decidable.not_and_iff_or_not.mp h2xx with h | h <;>
          simp [Nat.succ_le_succ, h]

/-- Every attempt before the last one of a run ended in a transport
failure: once any response arrives the loop stops. -/
lemma callerRun_retries_only_transport (decoder : Nat → String → DecodedError)
    (outcomes : Nat → Outcome) :
    ∀ fuel i j, j + 1 < (callerRun decoder outcomes i fuel).2 →
      ∃ msg, outcomes (i + j) = .transportFailure msg := by
  intro fuel
  induction fuel with
  | zero => intro i j h; simp [callerRun] at h
  | succ r ih =>
    intro i j h
    rw [callerRun] at h
    cases houtcome : outcomes i with
    | transportFailure msg =>
      rw [houtcome] at h
      by_cases hr : r = 0
      · simp [hr] at h
      · simp only [hr, if_false] at h
        cases j with
        | zero => exact ⟨msg, by simpa using houtcome⟩
        | succ k =>
          have hk : k + 1 < (callerRun decoder outcomes (i + 1) r).2 := by
            omega
          have := ih (i + 1) k hk
          simpa [Nat.add_assoc, Nat.add_comm 1 k] using this
    | response status body =>
      rw [houtcome] at h
      by_cases h2xx : 200 ≤ status ∧ status < 300
      · simp [h2xx.1, h2xx.2] at h
      · rcases Decidable.not_and_iff_or_not.mp h2xx with hlt | hlt <;>
          simp [hlt] at h

/-- C3: a call through the executor makes at most `MaxAttempts`
transport-level attempts, and any attempt other than the final one ended
in a transport failure — an HTTP response, whatever its status code, ends
the loop, so error statuses are never retried. -/
theorem claim_C3_attempt_bound (decoder : Nat → String → DecodedError)
    (outcomes : Nat → Outcome) (maxAttempts : Nat) :
    (callerCall decoder outcomes maxAttempts).2 ≤ maxAttempts ∧
    (∀ j, j + 1 < (callerCall decoder outcomes maxAttempts).2 →
      ∃ msg, outcomes j = .transportFailure msg) := by
  constructor
  · exact callerRun_attempts_le decoder outcomes maxAttempts 0
  · intro j hj
    simpa using callerRun_retries_only_transport decoder outcomes maxAttempts 0 j hj

/-- C3, witness: three allowed attempts, a transient failure followed by a
200 response; the run stops after two attempts and the non-final attempt
was the transient failure. -/
theorem claim_C3_attempt_bound_witness :
    (callerCall testDecoder testOutcomes 3).2 ≤ 3 ∧
    (∃ msg, testOutcomes 0 = .transportFailure msg) :=
  ⟨(claim_C3_attempt_bound testDecoder testOutcomes 3).1,
   (claim_C3_attempt_bound testDecoder testOutcomes 3).2 0 (by decide)⟩

/-! ## C5 — trailing slash on the stored server URL -/

/-- `strings.TrimSuffix(s, "/")` removes only one trailing slash, so the
result can only end in `'/'` when the input ended in `"//"`. -/
lemma trimSuffixList_slash (l : List Char) (h : ¬ ['/', '/'] <:+ l) :
    ¬ ['/'] <:+ trimSuffixList l ['/'] := by
  unfold trimSuffixList
  by_cases hs : ['/'].isSuffixOf l
  · rw [if_pos hs]
    rcases List.isSuffixOf_iff_suffix.mp hs with ⟨t, ht⟩
    subst ht
    have hlen : (t ++ ['/']).length - 1 = t.length := by simp
    rw [List.length_singleton, hlen, List.take_left]
    rintro ⟨t', ht'⟩
    exact h ⟨t', by rw [← ht']; simp⟩
  · rw [if_neg hs]
    intro hcon
    exact hs (List.isSuffixOf_iff_suffix.mpr hcon)

/-- C5, counterexample.  The claim says the stored `ServerURL` never ends
in `'/'`; but `strings.TrimSuffix` removes only one trailing slash, so an
input ending in `"//"` leaves one behind. -/
theorem claim_C5_counterexample :
    (newZepClient "http://x//" "" 200 "0.16.0").1.ServerURL = "http://x/" ∧
    hasSuffix (newZepClient "http://x//" "" 200 "0.16.0").1.ServerURL "/" = true := by
  decide

/-- C5, amended: the stored `ServerURL` is the input with a single trailing
slash removed; whenever the input does not end in `"//"` it has no
trailing slash, and no operation changes it (`GetFullURL`, the only method
that touches it, returns its receiver unmodified). -/
theorem claim_C5_no_trailing_slash (serverURL apiKey : String)
    (healthStatus : Nat) (versionHeader : String)
    (h : hasSuffix serverURL "//" = false) :
    (newZepClient serverURL apiKey healthStatus versionHeader).1.ServerURL =
      trimSuffix serverURL "/" ∧
    hasSuffix (newZepClient serverURL apiKey healthStatus versionHeader).1.ServerURL
      "/" = false ∧
    (∀ endpoint,
      (getFullURL (newZepClient serverURL apiKey healthStatus versionHeader).1
        endpoint).2 =
      (newZepClient serverURL apiKey healthStatus versionHeader).1) := by
  refine ⟨rfl, ?_, fun endpoint => rfl⟩
  have hno : ¬ ['/', '/'] <:+ serverURL.data := by
    intro hcon
    have : ("//".data).isSuffixOf serverURL.data = true :=
      List.isSuffixOf_iff_suffix.mpr hcon
    rw [hasSuffix] at h
    exact absurd this (by simp [h])
  have := trimSuffixList_slash serverURL.data hno
  show ("/".data).isSuffixOf (trimSuffix serverURL "/").data = false
  rw [Bool.eq_false_iff]
  intro hcon
  exact this (List.isSuffixOf_iff_suffix.mp hcon)

/-- C5, witness: a URL with one trailing slash is stored without it. -/
theorem claim_C5_no_trailing_slash_witness :
    (newZepClient "http://host:8000/" "k" 200 "0.16.0").1.ServerURL =
      trimSuffix "http://host:8000/" "/" ∧
    hasSuffix (newZepClient "http://host:8000/" "k" 200 "0.16.0").1.ServerURL
      "/" = false ∧
    (∀ endpoint,
      (getFullURL (newZepClient "http://host:8000/" "k" 200 "0.16.0").1
        endpoint).2 =
      (newZepClient "http://host:8000/" "k" 200 "0.16.0").1) :=
  claim_C5_no_trailing_slash "http://host:8000/" "k" 200 "0.16.0" (by decide)

/-! ## C4 — the version gate -/

/-- Pure semantic-version ordering, stated from the spec's words
("compares it against a minimum supported version using semantic-version
ordering") for comparison with the code's constraint check. -/
def semverGE (v w : SemVersion) : Bool :=
  compareSemVer v w ≥ 0

/-- Against `0.16.0` the library's constraint check accepts exactly the
prerelease-free versions whose numeric core reaches `0.16`. -/
lemma checkConstraintGE_min_iff (v : SemVersion) :
    checkConstraintGE v minVersion = true ↔
      v.prerelease = "" ∧ (0 < v.major ∨ (v.major = 0 ∧ 16 ≤ v.minor)) := by
  rcases v with ⟨ma, mi, pa, pre, meta⟩
  unfold checkConstraintGE compareSemVer minVersion comparePrerelease
  by_cases hpre : pre = ""
  · simp only [hpre]
    split_ifs <;> (simp_all; try omega)
  · simp [hpre]

/-- C4, counterexample.  `1.0.0-alpha` is a valid semantic version that is
greater than `0.16.0` under semantic-version ordering, yet the gate
answers `(false, nil)`: the library excludes every prerelease version from
a constraint that names no prerelease. -/
theorem claim_C4_counterexample :
    parseVersion "1.0.0-alpha" = some ⟨1, 0, 0, "alpha", ""⟩ ∧
    semverGE ⟨1, 0, 0, "alpha", ""⟩ minVersion = true ∧
    isVersionGreaterOrEqual "1.0.0-alpha" = .ok false := by
  decide

/-- C4, amended: `isVersionGreaterOrEqual v` returns `(true, nil)` exactly
when `v` parses as a semantic version that carries no prerelease component
and whose numeric core is at least `0.16.0`; it returns an error exactly
when `v` does not parse as a semantic version. -/
theorem claim_C4_version_gate (s : String) :
    (isVersionGreaterOrEqual s = .ok true ↔
      ∃ v, parseVersion s = some v ∧ v.prerelease = "" ∧
        (0 < v.major ∨ (v.major = 0 ∧ 16 ≤ v.minor))) ∧
    ((∃ e, isVersionGreaterOrEqual s = .error e) ↔ parseVersion s = none) := by
  unfold isVersionGreaterOrEqual
  cases hp : parseVersion s with
  | none => simp
  | some v => simp [checkConstraintGE_min_iff]

/-- C4, witness: the characterization applied at `0.17.2` (accepted) and at
the non-version `latest` (an error). -/
theorem claim_C4_version_gate_witness :
    isVersionGreaterOrEqual "0.17.2" = .ok true ∧
    parseVersion "latest" = none :=
  ⟨(claim_C4_version_gate "0.17.2").1.mpr
     ⟨⟨0, 17, 2, "", ""⟩, by decide, rfl, by decide⟩,
   (claim_C4_version_gate "latest").2.mp ⟨"Invalid Semantic Version: latest", by decide⟩⟩
